/-
Verification of the month-calendar layout and rendering logic of
`pycalendar.py` against its design specification.

The development shallowly embeds the program:

* the parts of Python's `calendar` module the program uses
  (`monthcalendar`, `monthrange`, weekday computation with Monday = 0,
  leap years) are translated as executable Lean functions on `Nat`;
* the real-valued geometry (`Geom`, `Size`, `Font`, cell rectangles,
  scale factor, line width) is modelled over `ℚ`, which represents the
  ideal real arithmetic the floating-point code approximates;
* drawing against the ReportLab canvas is modelled as an emitted trace
  of `DrawOp` values, and the `save_state` context manager — a Python
  `@contextmanager` generator with no try/finally — is modelled so that
  `restoreState` is emitted only when the wrapped body returns without
  raising, exactly as the generator semantics dictate;
* the module-global first-weekday state mutated by
  `calendar.setfirstweekday` is threaded explicitly through
  `add_calendar_page_ops` as an input/output value.
-/
import Mathlib

/-! ## Calendar model (the parts of Python's `calendar` module used) -/

/-- Gregorian leap-year test, as in Python `calendar.isleap`. -/
def isleap (year : Nat) : Bool :=
  year % 4 == 0 && (year % 100 != 0 || year % 400 == 0)

/-- Days per month for a non-leap year, 1-indexed with a dummy 0 entry,
as the `mdays` table of Python's `calendar` module. -/
def mdays : List Nat :=
  [0, 31, 28, 31, 30, 31, 30, 31, 31, 30, 31, 30, 31]

/-- Number of days in the given month, as Python's
`calendar.monthrange(year, month)[1]`. -/
def monthlen (year month : Nat) : Nat :=
  mdays.getD month 0 + (if month == 2 && isleap year then 1 else 0)

/-- Number of days in all years strictly before `year`, as in Python's
`datetime` proleptic-Gregorian ordinal (`_days_before_year`). -/
def daysBeforeYear (year : Nat) : Nat :=
  let y := year - 1
  y * 365 + y / 4 - y / 100 + y / 400

/-- Number of days in `year` strictly before `month`
(`datetime._days_before_month`). -/
def daysBeforeMonth (year month : Nat) : Nat :=
  (List.range month).foldl (fun acc m => acc + monthlen year m) 0

/-- Proleptic-Gregorian ordinal of a date: day 1 is January 1 of year 1,
as in Python's `datetime.date.toordinal`. -/
def toOrdinal (year month day : Nat) : Nat :=
  daysBeforeYear year + daysBeforeMonth year month + day

/-- Weekday of a date with Monday = 0 … Sunday = 6, as Python's
`datetime.date.weekday` / `calendar.weekday`.  January 1 of year 1 is a
Monday (ordinal 1), hence the offset 6. -/
def weekday (year month day : Nat) : Nat :=
  (toOrdinal year month day + 6) % 7

/-- Python's `calendar.SUNDAY` constant. -/
def SUNDAY : Nat := 6

/-- The flat day list of a month under a given first weekday:
`(day1 - firstweekday) % 7` leading zeros, the days `1..ndays`, then
zeros padding the last week, as Python's `Calendar.itermonthdays`. -/
def monthdays (firstweekday year month : Nat) : List Nat :=
  let day1 := weekday year month 1
  let ndays := monthlen year month
  let days_before := (((day1 : Int) - firstweekday) % 7).toNat
  let days_after := (((firstweekday : Int) - day1 - ndays) % 7).toNat
  List.replicate days_before 0 ++ List.range' 1 ndays ++ List.replicate days_after 0

/-- Recursion core of `chunks7`.  The `fuel` argument only bounds the
number of slices taken (any `fuel ≥ l.length` yields the same result);
it makes the recursion structural so the function reduces in the
kernel. -/
def chunks7Go (fuel : Nat) (l : List Nat) : List (List Nat) :=
  match fuel with
  | 0 => []
  | fuel + 1 =>
      if l.isEmpty then [] else l.take 7 :: chunks7Go fuel (l.drop 7)

/-- Split a flat list into consecutive weeks of (at most) 7 entries, as
the slicing `[days[i:i+7] for i in range(0, len(days), 7)]` in Python's
`Calendar.monthdayscalendar`. -/
def chunks7 (l : List Nat) : List (List Nat) :=
  chunks7Go l.length l

/-- The week grid of a month: Python's `calendar.monthcalendar` after
`calendar.setfirstweekday(firstweekday)`. -/
def monthcalendar (firstweekday year month : Nat) : List (List Nat) :=
  chunks7 (monthdays firstweekday year month)

/-- Abbreviated month names, as Python's `calendar.month_abbr`
(1-indexed with an empty 0 entry). -/
def month_abbr : List String :=
  ["", "Jan", "Feb", "Mar", "Apr", "May", "Jun",
   "Jul", "Aug", "Sep", "Oct", "Nov", "Dec"]

/-! ## Geometry model

The program's `Geom`, `Size` and `Font` named tuples, over exact
rationals in place of Python floats. -/

/-- The program's `Geom = namedtuple("Geom", ["x", "y", "width", "height"])`. -/
structure Geom where
  x : ℚ
  y : ℚ
  width : ℚ
  height : ℚ
deriving DecidableEq, Repr

/-- The program's `Size = namedtuple("Size", ["width", "height"])`. -/
structure Size where
  width : ℚ
  height : ℚ
deriving DecidableEq, Repr

/-- The program's `Font = namedtuple("Font", ["name", "size"])`. -/
structure Font where
  name : String
  size : ℚ
deriving DecidableEq, Repr

/-- `scale_factor = min(rect.width, rect.height)` (line 104). -/
def scale_factor (rect : Geom) : ℚ :=
  min rect.width rect.height

/-- `line_width = scale_factor * 0.0025` (line 105). -/
def line_width (rect : Geom) : ℚ :=
  scale_factor rect * 0.0025

/-- `font = Font("Helvetica", scale_factor * 0.028)` (line 106). -/
def page_font (rect : Geom) : Font :=
  ⟨"Helvetica", scale_factor rect * 0.028⟩

/-- The stroke-inset rectangle of lines 110–115: the target rectangle
moved in by `line_width` on every side. -/
def inset_rect (rect : Geom) : Geom :=
  ⟨rect.x + line_width rect,
   rect.y + line_width rect,
   rect.width - line_width rect * 2,
   rect.height - line_width rect * 2⟩

/-- `cellsize = Size(rect.width / 7, rect.height / rows)` (line 116),
where `rect` is the inset rectangle and `rows = len(cal)`. -/
def cellsize (rect : Geom) (rows : Nat) : Size :=
  ⟨(inset_rect rect).width / 7, (inset_rect rect).height / rows⟩

/-- The cell rectangle handed to the cell callback (lines 130–135):
`x = rect.x + cellsize.width * col`,
`y = rect.y + (rows - row) * cellsize.height` (the cell's top edge). -/
def cell_rect (rect : Geom) (rows row col : Nat) : Geom :=
  let r := inset_rect rect
  let cs := cellsize rect rows
  ⟨r.x + cs.width * col,
   r.y + ((rows - row : Nat) : ℚ) * cs.height,
   cs.width,
   cs.height⟩

/-- Entry of a week grid at (row, col), with the 0 padding value as
default out of range. -/
def cellAt (cal : List (List Nat)) (row col : Nat) : Nat :=
  (cal.getD row []).getD col 0

/-- The grid slot receiving the month/year label (line 147):
`(0, 0) if cal[0][0] == 0 else (rows - 1, 6)`. -/
def label_slot (cal : List (List Nat)) : Nat × Nat :=
  if cellAt cal 0 0 == 0 then (0, 0) else (cal.length - 1, 6)

/-- Membership in the closed rectangle of a cell; the `y` field of a
cell rectangle is its top edge. -/
def in_cell (g : Geom) (p : ℚ × ℚ) : Prop :=
  g.x ≤ p.1 ∧ p.1 ≤ g.x + g.width ∧ g.y - g.height ≤ p.2 ∧ p.2 ≤ g.y

/-- Membership in the open interior of a cell rectangle. -/
def in_cell_interior (g : Geom) (p : ℚ × ℚ) : Prop :=
  g.x < p.1 ∧ p.1 < g.x + g.width ∧ g.y - g.height < p.2 ∧ p.2 < g.y

/-! ## Drawing model

Canvas calls are modelled as an emitted trace of operations. -/

/-- One drawing call against the ReportLab canvas. -/
inductive DrawOp where
  | rect (x y width height : ℚ)
  | drawString (x y : ℚ) (s : String)
  | setFont (name : String) (size : ℚ)
  | setLineWidth (width : ℚ)
  | saveState
  | restoreState
  | showPage
deriving DecidableEq, Repr

/-- The `ORDINALS` dict (lines 37–46), as an association list with
`none` playing the role of the Python `None` wildcard key. -/
def ORDINALS : List (Option Nat × String) :=
  [(some 1, "st"), (some 2, "nd"), (some 3, "rd"),
   (some 21, "st"), (some 22, "nd"), (some 23, "rd"),
   (some 31, "st"), (none, "th")]

/-- `ORDINALS.get(day, ORDINALS[None])` (line 197). -/
def ordinals_get (day : Nat) : String :=
  match ORDINALS.lookup (some day) with
  | some s => s
  | none => (ORDINALS.lookup none).getD ""

/-- The trace of canvas calls of `draw_cell` (lines 167–201).  The
text-measurement collaborator `canvas.stringWidth` is abstracted as the
function argument `stringWidth`. -/
def draw_cell (stringWidth : String → String → ℚ → ℚ)
    (day : Nat) (rect : Geom) (font : Font) (ordinals : Bool) : List DrawOp :=
  if day = 0 then []
  else
    let margin : Size := ⟨font.size * 0.5, font.size * 1.3⟩
    let dayStr := toString day
    let text_x := rect.x + margin.width
    let text_y := rect.y - margin.height
    [DrawOp.rect rect.x (rect.y - rect.height) rect.width rect.height,
     DrawOp.drawString text_x text_y dayStr] ++
    (if ordinals then
      [DrawOp.drawString
        (text_x + stringWidth dayStr font.name font.size)
        (text_y + margin.height * 0.1)
        (ordinals_get day)]
     else [])

/-- The trace of canvas calls of `draw_month_label` (lines 204–211). -/
def draw_month_label (year month : Nat) (rect : Geom) (font : Font) :
    List DrawOp :=
  let margin : Size := ⟨font.size * 0.5, font.size * 1.3⟩
  [DrawOp.drawString (rect.x + margin.width) (rect.y - margin.height)
    (month_abbr.getD month "" ++ " " ++ toString year)]

/-! ## Execution model with exceptions and global state

A callback invocation yields the ops it emitted and whether it raised.
`calendar.setfirstweekday` (line 99) mutates module-global state, which
is threaded explicitly as a `Nat` in and out of the page function. -/

/-- Result of running a block of drawing code: the emitted canvas calls
and whether the block raised an exception. -/
structure CbResult where
  ops : List DrawOp
  raised : Bool
deriving DecidableEq, Repr

/-- Sequencing with exception propagation: if `a` raised, `b` never
runs. -/
def CbResult.andThen (a b : CbResult) : CbResult :=
  if a.raised then a else ⟨a.ops ++ b.ops, b.raised⟩

/-- Run a block for each list element in order, stopping at the first
exception. -/
def run_list (f : α → CbResult) : List α → CbResult
  | [] => ⟨[], false⟩
  | x :: xs => (f x).andThen (run_list f xs)

/-- One `with save_state(canvas):` block of `add_calendar_page`
(lines 121–125 / 141–144): `canvas.saveState()`, then the default
parameters `canvas.setFont(*font)` and `canvas.setLineWidth(line_width)`,
then the body.  Because `save_state` (lines 72–77) is a `@contextmanager`
generator with no try/finally, `canvas.restoreState()` runs only when the
body returns without raising; on an exception thrown into the generator
the restore is skipped and the exception propagates. -/
def with_save_state (font : Font) (lw : ℚ) (body : CbResult) : CbResult :=
  ⟨DrawOp.saveState ::
     DrawOp.setFont font.name font.size ::
     DrawOp.setLineWidth lw ::
     (body.ops ++ if body.raised then [] else [DrawOp.restoreState]),
   body.raised⟩

/-- The (row, col, day) triples visited by the nested
`for row, week in enumerate(cal): for col, day in enumerate(week):`
loops (lines 119–120), in order. -/
def cell_positions (cal : List (List Nat)) : List (Nat × Nat × Nat) :=
  (cal.enum.map (fun rw => rw.2.enum.map (fun cd => (rw.1, cd.1, cd.2)))).flatten

/-- The full behaviour of `add_calendar_page` (lines 80–164) on the
explicit module-global first-weekday state `global_fw`: returns the
emitted trace (with raised flag) and the global state after the call.
Line 99 sets the global to `first_weekday`; `calendar.monthcalendar`
then reads it. -/
def add_calendar_page_ops (global_fw : Nat) (rect : Geom)
    (year month : Nat) (cell_cb : Nat → Geom → Font → Bool → CbResult)
    (ordinals : Bool) (first_weekday : Nat) : CbResult × Nat :=
  let g := first_weekday
  let cal := monthcalendar g year month
  let font := page_font rect
  let lw := line_width rect
  let rows := cal.length
  let cells := run_list
    (fun rcd => with_save_state font lw
      (cell_cb rcd.2.2 (cell_rect rect rows rcd.1 rcd.2.1) font ordinals))
    (cell_positions cal)
  let slot := label_slot cal
  let label := with_save_state font lw
    ⟨draw_month_label year month (cell_rect rect rows slot.1 slot.2) font,
     false⟩
  (cells.andThen (label.andThen ⟨[DrawOp.showPage], false⟩), g)

/-- The persistent drawing state of the canvas: active font, active line
width, and the stack managed by `saveState`/`restoreState`. -/
structure GState where
  font : Option Font
  lw : Option ℚ
  stack : List (Option Font × Option ℚ)
deriving DecidableEq, Repr

/-- Effect of one canvas call on the persistent drawing state
(drawing calls such as `rect` and `drawString` leave it untouched). -/
def exec_op (s : GState) : DrawOp → GState
  | DrawOp.setFont n sz => { s with font := some ⟨n, sz⟩ }
  | DrawOp.setLineWidth w => { s with lw := some w }
  | DrawOp.saveState => { s with stack := (s.font, s.lw) :: s.stack }
  | DrawOp.restoreState =>
      match s.stack with
      | [] => s
      | (f, w) :: rest => ⟨f, w, rest⟩
  | _ => s

/-- Effect of a trace of canvas calls on the persistent drawing state. -/
def exec_ops (s : GState) (ops : List DrawOp) : GState :=
  ops.foldl exec_op s

/-- An op that neither saves nor restores the canvas state stack. -/
def stack_neutral (op : DrawOp) : Prop :=
  op ≠ DrawOp.saveState ∧ op ≠ DrawOp.restoreState


/-- The canvas calls of one completed `with save_state(canvas):` block:
`saveState`, the default font and line width, the body's calls, then the
matching `restoreState`. -/
def wrapped_block (font : Font) (lw : ℚ) (ops : List DrawOp) : List DrawOp :=
  DrawOp.saveState :: DrawOp.setFont font.name font.size ::
    DrawOp.setLineWidth lw :: (ops ++ [DrawOp.restoreState])

/-- The page trace `add_calendar_page` is expected to emit when no cell
callback raises: one completed save/restore block per grid cell in
row-major order, one for the month/year label, then `showPage`. -/
def expected_page_trace (rect : Geom) (year month : Nat)
    (cb : Nat → Geom → Font → Bool → CbResult) (ord : Bool)
    (fw : Nat) : List DrawOp :=
  let cal := monthcalendar fw year month
  let font := page_font rect
  let lw := line_width rect
  ((cell_positions cal).map (fun rcd =>
     wrapped_block font lw
       (cb rcd.2.2 (cell_rect rect cal.length rcd.1 rcd.2.1) font ord).ops)).flatten
  ++ wrapped_block font lw
       (draw_month_label year month
         (cell_rect rect cal.length (label_slot cal).1 (label_slot cal).2)
         font)
  ++ [DrawOp.showPage]

/-- The behaviour of `generate_pdf` (lines 214–240) on the explicit
module-global first-weekday state: margins of 1/50th of each page
dimension are reserved, then `add_calendar_page` runs on the margined
rectangle with `draw_cell` as the cell callback (which never raises).
The canvas text-measurement collaborator is the `stringWidth`
argument. -/
def generate_pdf_ops (stringWidth : String → String → ℚ → ℚ)
    (global_fw : Nat) (size : Size) (year month : Nat)
    (ordinals : Bool) (first_weekday : Nat) : CbResult × Nat :=
  let wmar := size.width / 50
  let hmar := size.height / 50
  let size' : Size := ⟨size.width - 2 * wmar, size.height - 2 * hmar⟩
  add_calendar_page_ops global_fw ⟨wmar, hmar, size'.width, size'.height⟩
    year month
    (fun day rect font ord =>
      ⟨draw_cell stringWidth day rect font ord, false⟩)
    ordinals first_weekday

/-! ## Claim C4: scale factor, stroke width, font size, inset -/

/-- C4: `add_calendar_page` derives `scale_factor = min(width, height)`,
`line_width = scale_factor * 0.0025`, a font of fixed typeface
"Helvetica" with size `scale_factor * 0.028`, insets the target
rectangle by `line_width` on all four sides, and computes the cell sizes
from that inset rectangle; font size and stroke width depend on nothing
but `min(width, height)`. -/
theorem C4_scale_and_inset (rect rect' : Geom) (rows : Nat)
    (h : min rect'.width rect'.height = min rect.width rect.height) :
    scale_factor rect = min rect.width rect.height ∧
    line_width rect = scale_factor rect * 0.0025 ∧
    page_font rect = ⟨"Helvetica", scale_factor rect * 0.028⟩ ∧
    inset_rect rect = ⟨rect.x + line_width rect, rect.y + line_width rect,
      rect.width - 2 * line_width rect, rect.height - 2 * line_width rect⟩ ∧
    cellsize rect rows =
      ⟨(inset_rect rect).width / 7, (inset_rect rect).height / rows⟩ ∧
    (page_font rect').size = (page_font rect).size ∧
    line_width rect' = line_width rect := by
  refine ⟨rfl, rfl, rfl, ?_, rfl, ?_, ?_⟩
  · simp [inset_rect]; ring
  · simp [page_font, scale_factor, h]
  · simp [line_width, scale_factor, h]

/-- Witness instantiating `C4_scale_and_inset` at concrete rectangles
with equal smaller dimension. -/
theorem C4_scale_and_inset_witness :
    min (612 : ℚ) 1000 = min (792 : ℚ) 612 ∧
    (scale_factor ⟨0, 0, 792, 612⟩ = min 792 612 ∧
     line_width ⟨0, 0, 792, 612⟩ = scale_factor ⟨0, 0, 792, 612⟩ * 0.0025 ∧
     page_font ⟨0, 0, 792, 612⟩ =
       ⟨"Helvetica", scale_factor ⟨0, 0, 792, 612⟩ * 0.028⟩ ∧
     inset_rect ⟨0, 0, 792, 612⟩ =
       ⟨0 + line_width ⟨0, 0, 792, 612⟩, 0 + line_width ⟨0, 0, 792, 612⟩,
        792 - 2 * line_width ⟨0, 0, 792, 612⟩,
        612 - 2 * line_width ⟨0, 0, 792, 612⟩⟩ ∧
     cellsize ⟨0, 0, 792, 612⟩ 5 =
       ⟨(inset_rect ⟨0, 0, 792, 612⟩).width / 7,
        (inset_rect ⟨0, 0, 792, 612⟩).height / 5⟩ ∧
     (page_font ⟨10, 20, 612, 1000⟩).size = (page_font ⟨0, 0, 792, 612⟩).size ∧
     line_width ⟨10, 20, 612, 1000⟩ = line_width ⟨0, 0, 792, 612⟩) :=
  ⟨by decide, C4_scale_and_inset ⟨0, 0, 792, 612⟩ ⟨10, 20, 612, 1000⟩ 5 (by decide)⟩

/-! ## Claim C6: empty cells draw nothing -/

/-- C6: `draw_cell` with `day == 0` emits no canvas call at all: no
border rectangle, no day number, no ordinal suffix. -/
theorem C6_empty_cell_draws_nothing
    (stringWidth : String → String → ℚ → ℚ) (rect : Geom) (font : Font)
    (ordinals : Bool) :
    draw_cell stringWidth 0 rect font ordinals = [] := rfl

/-! ## Claim C5: ordinal suffixes -/

/-- C5: with ordinals enabled, `draw_cell` on a day 1–31 draws the
border, the day number at the margin offsets, and the ordinal suffix —
the exact `ORDINALS` lookup with wildcard fallback "th", so 1→"st",
2→"nd", 3→"rd", 4→"th", 11→"th", 21→"st", 22→"nd", 23→"rd", 31→"st" —
at x offset equal to the measured width of the day-number string and
raised by 0.1 times the margin height. -/
theorem C5_ordinal_suffix (stringWidth : String → String → ℚ → ℚ)
    (day : Nat) (rect : Geom) (font : Font)
    (h1 : 1 ≤ day) (h2 : day ≤ 31) :
    ordinals_get day =
      (if day = 1 ∨ day = 21 ∨ day = 31 then "st"
       else if day = 2 ∨ day = 22 then "nd"
       else if day = 3 ∨ day = 23 then "rd"
       else "th") ∧
    draw_cell stringWidth day rect font true =
      [DrawOp.rect rect.x (rect.y - rect.height) rect.width rect.height,
       DrawOp.drawString (rect.x + font.size * 0.5)
         (rect.y - font.size * 1.3) (toString day),
       DrawOp.drawString
         (rect.x + font.size * 0.5 +
           stringWidth (toString day) font.name font.size)
         (rect.y - font.size * 1.3 + font.size * 1.3 * 0.1)
         (ordinals_get day)] := by
  constructor
  · interval_cases day <;> decide
  · have hne : ¬day = 0 := by omega
    simp [draw_cell, hne]

/-- Witness instantiating `C5_ordinal_suffix` at day 21 with a concrete
measurement function. -/
theorem C5_ordinal_suffix_witness :
    1 ≤ 21 ∧ 21 ≤ 31 ∧
    (ordinals_get 21 =
      (if 21 = 1 ∨ 21 = 21 ∨ 21 = 31 then "st"
       else if 21 = 2 ∨ 21 = 22 then "nd"
       else if 21 = 3 ∨ 21 = 23 then "rd"
       else "th") ∧
     draw_cell (fun _ _ _ => 12) 21 ⟨100, 200, 50, 40⟩ ⟨"Helvetica", 10⟩ true =
      [DrawOp.rect 100 (200 - 40) 50 40,
       DrawOp.drawString (100 + 10 * 0.5) (200 - 10 * 1.3) (toString 21),
       DrawOp.drawString (100 + 10 * 0.5 + 12)
         (200 - 10 * 1.3 + 10 * 1.3 * 0.1) (ordinals_get 21)]) :=
  ⟨by decide, by decide,
   C5_ordinal_suffix (fun _ _ _ => 12) 21 ⟨100, 200, 50, 40⟩ ⟨"Helvetica", 10⟩
     (by decide) (by decide)⟩

/-! ## Claim C8: scale invariance -/

/-- C8: doubling both dimensions of the target rectangle doubles the
cell width and height, the font size and the stroke width, leaving the
ratios between these quantities unchanged. -/
theorem C8_scale_invariance (rect : Geom) (rows : Nat)
    (hw : 0 < rect.width) (hh : 0 < rect.height) :
    let rect2 : Geom := ⟨rect.x, rect.y, 2 * rect.width, 2 * rect.height⟩
    (cellsize rect2 rows).width = 2 * (cellsize rect rows).width ∧
    (cellsize rect2 rows).height = 2 * (cellsize rect rows).height ∧
    (page_font rect2).size = 2 * (page_font rect).size ∧
    line_width rect2 = 2 * line_width rect ∧
    (page_font rect2).size / line_width rect2 =
      (page_font rect).size / line_width rect ∧
    (cellsize rect2 rows).width / (cellsize rect2 rows).height =
      (cellsize rect rows).width / (cellsize rect rows).height ∧
    (cellsize rect2 rows).height / (page_font rect2).size =
      (cellsize rect rows).height / (page_font rect).size := by
  intro rect2
  have hmin : min rect2.width rect2.height =
      2 * min rect.width rect.height := by
    simp only [rect2]
    rcases le_total rect.width rect.height with h | h
    · rw [min_eq_left h, min_eq_left (by linarith)]
    · rw [min_eq_right h, min_eq_right (by linarith)]
  have hlw : line_width rect2 = 2 * line_width rect := by
    simp only [line_width, scale_factor, hmin]; ring
  have hfs : (page_font rect2).size = 2 * (page_font rect).size := by
    simp only [page_font, scale_factor, hmin]; ring
  have hcw : (cellsize rect2 rows).width = 2 * (cellsize rect rows).width := by
    simp only [cellsize, inset_rect, hlw, rect2]; ring
  have hch : (cellsize rect2 rows).height =
      2 * (cellsize rect rows).height := by
    simp only [cellsize, inset_rect, hlw, rect2]; ring
  refine ⟨hcw, hch, hfs, hlw, ?_, ?_, ?_⟩
  · rw [hfs, hlw, mul_div_mul_left _ _ (by norm_num : (2 : ℚ) ≠ 0)]
  · rw [hcw, hch, mul_div_mul_left _ _ (by norm_num : (2 : ℚ) ≠ 0)]
  · rw [hch, hfs, mul_div_mul_left _ _ (by norm_num : (2 : ℚ) ≠ 0)]

/-- Witness instantiating `C8_scale_invariance` on a 612×792 rectangle
with a 5-row grid. -/
theorem C8_scale_invariance_witness :
    0 < (612 : ℚ) ∧ 0 < (792 : ℚ) ∧
    ((cellsize ⟨0, 0, 2 * 612, 2 * 792⟩ 5).width =
       2 * (cellsize ⟨0, 0, 612, 792⟩ 5).width ∧
     (cellsize ⟨0, 0, 2 * 612, 2 * 792⟩ 5).height =
       2 * (cellsize ⟨0, 0, 612, 792⟩ 5).height ∧
     (page_font ⟨0, 0, 2 * 612, 2 * 792⟩).size =
       2 * (page_font ⟨0, 0, 612, 792⟩).size ∧
     line_width ⟨0, 0, 2 * 612, 2 * 792⟩ = 2 * line_width ⟨0, 0, 612, 792⟩ ∧
     (page_font ⟨0, 0, 2 * 612, 2 * 792⟩).size /
         line_width ⟨0, 0, 2 * 612, 2 * 792⟩ =
       (page_font ⟨0, 0, 612, 792⟩).size / line_width ⟨0, 0, 612, 792⟩ ∧
     (cellsize ⟨0, 0, 2 * 612, 2 * 792⟩ 5).width /
         (cellsize ⟨0, 0, 2 * 612, 2 * 792⟩ 5).height =
       (cellsize ⟨0, 0, 612, 792⟩ 5).width /
         (cellsize ⟨0, 0, 612, 792⟩ 5).height ∧
     (cellsize ⟨0, 0, 2 * 612, 2 * 792⟩ 5).height /
         (page_font ⟨0, 0, 2 * 612, 2 * 792⟩).size =
       (cellsize ⟨0, 0, 612, 792⟩ 5).height /
         (page_font ⟨0, 0, 612, 792⟩).size) :=
  ⟨by decide, by decide,
   C8_scale_invariance ⟨0, 0, 612, 792⟩ 5 (by decide) (by decide)⟩

/-! ## Week-grid lemmas -/

theorem chunks7Go_flatten (fuel : Nat) :
    ∀ l : List Nat, l.length ≤ fuel → (chunks7Go fuel l).flatten = l := by
  induction fuel with
  | zero =>
    intro l h
    have hl : l = [] := by cases l <;> simp_all
    simp [hl, chunks7Go]
  | succ fuel ih =>
    intro l h
    by_cases he : l.isEmpty
    · simp [chunks7Go, he, List.isEmpty_iff.mp he]
    · have hl : 1 ≤ l.length := by
        cases l
        · simp [List.isEmpty] at he
        · simp
      rw [chunks7Go, if_neg he]
      simp only [List.flatten_cons,
        ih (l.drop 7) (by simp only [List.length_drop]; omega)]
      exact List.take_append_drop 7 l

/-- The slices reassemble the original flat list. -/
theorem chunks7_flatten (l : List Nat) : (chunks7 l).flatten = l :=
  chunks7Go_flatten l.length l le_rfl

theorem chunks7Go_length (fuel : Nat) :
    ∀ l : List Nat, l.length ≤ fuel →
      (chunks7Go fuel l).length = (l.length + 6) / 7 := by
  induction fuel with
  | zero =>
    intro l h
    have hl : l = [] := by cases l <;> simp_all
    simp [hl, chunks7Go]
  | succ fuel ih =>
    intro l h
    by_cases he : l.isEmpty
    · simp [chunks7Go, he, List.isEmpty_iff.mp he]
    · have hl : 1 ≤ l.length := by
        cases l
        · simp [List.isEmpty] at he
        · simp
      rw [chunks7Go, if_neg he]
      simp only [List.length_cons,
        ih (l.drop 7) (by simp only [List.length_drop]; omega),
        List.length_drop]
      omega

/-- The number of week rows is the length of the flat list divided by 7,
rounded up. -/
theorem chunks7_length (l : List Nat) :
    (chunks7 l).length = (l.length + 6) / 7 :=
  chunks7Go_length l.length l le_rfl

theorem chunks7Go_row_length (fuel : Nat) :
    ∀ l : List Nat, l.length ≤ fuel → l.length % 7 = 0 →
      ∀ w ∈ chunks7Go fuel l, w.length = 7 := by
  induction fuel with
  | zero => intro l h _ w hw; simp [chunks7Go] at hw
  | succ fuel ih =>
    intro l h hdvd w hw
    by_cases he : l.isEmpty
    · simp [chunks7Go, he] at hw
    · have hl : 1 ≤ l.length := by
        cases l
        · simp [List.isEmpty] at he
        · simp
      rw [chunks7Go, if_neg he] at hw
      rcases List.mem_cons.mp hw with rfl | hw'
      · simp only [List.length_take]; omega
      · exact ih (l.drop 7)
          (by simp only [List.length_drop]; omega)
          (by simp only [List.length_drop]; omega) w hw'

/-- When the flat list length is a multiple of 7, every row has exactly
7 entries. -/
theorem chunks7_row_length (l : List Nat) (hdvd : l.length % 7 = 0) :
    ∀ w ∈ chunks7 l, w.length = 7 :=
  chunks7Go_row_length l.length l le_rfl hdvd

theorem chunks7Go_cellAt (fuel : Nat) :
    ∀ (r c : Nat) (l : List Nat), l.length ≤ fuel → c < 7 →
      cellAt (chunks7Go fuel l) r c = l.getD (7 * r + c) 0 := by
  induction fuel with
  | zero =>
    intro r c l h _
    have hl : l = [] := by cases l <;> simp_all
    simp [hl, chunks7Go, cellAt]
  | succ fuel ih =>
    intro r c l h hc
    by_cases he : l.isEmpty
    · simp [chunks7Go, he, List.isEmpty_iff.mp he, cellAt]
    · have hl : 1 ≤ l.length := by
        cases l
        · simp [List.isEmpty] at he
        · simp
      rw [chunks7Go, if_neg he]
      cases r with
      | zero =>
        simp only [cellAt, List.getD_cons_zero, List.getD_eq_getElem?_getD]
        simp [List.getElem?_take, hc]
      | succ r =>
        simp only [cellAt, List.getD_cons_succ]
        have hrec := ih r c (l.drop 7)
          (by simp only [List.length_drop]; omega) hc
        simp only [cellAt] at hrec
        rw [hrec]
        simp only [List.getD_eq_getElem?_getD, List.getElem?_drop]
        have hidx : 7 + (7 * r + c) = 7 * (r + 1) + c := by omega
        rw [hidx]

/-- Grid lookup reduces to flat-list lookup. -/
theorem cellAt_chunks7 (r c : Nat) (hc : c < 7) (l : List Nat) :
    cellAt (chunks7 l) r c = l.getD (7 * r + c) 0 :=
  chunks7Go_cellAt l.length r c l le_rfl hc

/-- Every valid month has between 28 and 31 days. -/
theorem monthlen_bounds (year month : Nat)
    (h1 : 1 ≤ month) (h2 : month ≤ 12) :
    28 ≤ monthlen year month ∧ monthlen year month ≤ 31 := by
  interval_cases month <;> cases h : isleap year <;>
    simp [monthlen, mdays, h]

/-- Weekday numbers are always in `0..6`. -/
theorem weekday_lt (year month day : Nat) : weekday year month day < 7 :=
  Nat.mod_lt _ (by norm_num)

/-- The flat day list spelled out: leading padding, the days, trailing
padding. -/
theorem monthdays_eq (fw y m : Nat) :
    monthdays fw y m =
      List.replicate (((weekday y m 1 : Int) - fw) % 7).toNat 0 ++
      List.range' 1 (monthlen y m) ++
      List.replicate
        (((fw : Int) - weekday y m 1 - monthlen y m) % 7).toNat 0 := rfl

/-- The flat day list has length a multiple of 7, between 28 and 42. -/
theorem monthdays_length_facts (fw y m : Nat)
    (hm1 : 1 ≤ m) (hm2 : m ≤ 12) (hfw : fw < 7) :
    (monthdays fw y m).length % 7 = 0 ∧
    28 ≤ (monthdays fw y m).length ∧ (monthdays fw y m).length ≤ 42 := by
  have hb := monthlen_bounds y m hm1 hm2
  have hd1 := weekday_lt y m 1
  rw [monthdays_eq]
  simp only [List.length_append, List.length_replicate, List.length_range']
  omega

/-! ## Claim C1: week-grid shape and contents -/

/-- C1: for every valid (year, month) and first-weekday choice, the week
grid has 7 columns in every row, between 4 and 6 rows, and its entries
read row-major are leading zeros, then the days 1..N of the month each
exactly once in order, then trailing zeros. -/
theorem C1_weekgrid (y m fw : Nat)
    (hy : 1 ≤ y) (hm1 : 1 ≤ m) (hm2 : m ≤ 12) (hfw : fw < 7) :
    (∀ w ∈ monthcalendar fw y m, w.length = 7) ∧
    4 ≤ (monthcalendar fw y m).length ∧
    (monthcalendar fw y m).length ≤ 6 ∧
    ∃ lead trail, (monthcalendar fw y m).flatten =
      List.replicate lead 0 ++ List.range' 1 (monthlen y m) ++
      List.replicate trail 0 := by
  obtain ⟨hmod, hlo, hhi⟩ := monthdays_length_facts fw y m hm1 hm2 hfw
  refine ⟨chunks7_row_length _ hmod, ?_, ?_, ?_⟩
  · rw [monthcalendar, chunks7_length]; omega
  · rw [monthcalendar, chunks7_length]; omega
  · exact ⟨(((weekday y m 1 : Int) - fw) % 7).toNat,
      (((fw : Int) - weekday y m 1 - monthlen y m) % 7).toNat,
      by rw [monthcalendar, chunks7_flatten]; exact monthdays_eq fw y m⟩

/-- Witness instantiating `C1_weekgrid` at September 2024, Sunday-first. -/
theorem C1_weekgrid_witness :
    (1 ≤ 2024 ∧ 1 ≤ 9 ∧ 9 ≤ 12 ∧ SUNDAY < 7) ∧
    ((∀ w ∈ monthcalendar SUNDAY 2024 9, w.length = 7) ∧
     4 ≤ (monthcalendar SUNDAY 2024 9).length ∧
     (monthcalendar SUNDAY 2024 9).length ≤ 6 ∧
     ∃ lead trail, (monthcalendar SUNDAY 2024 9).flatten =
       List.replicate lead 0 ++ List.range' 1 (monthlen 2024 9) ++
       List.replicate trail 0) :=
  ⟨by decide,
   C1_weekgrid 2024 9 SUNDAY (by decide) (by decide) (by decide) (by decide)⟩

/-! ## Claims C3 and C10: label placement -/

/-- The top-left grid entry is 1 when the month starts on the configured
first weekday and 0 (padding) otherwise. -/
theorem cellAt_zero_zero (fw y m : Nat)
    (hm1 : 1 ≤ m) (hm2 : m ≤ 12) (hfw : fw < 7) :
    cellAt (monthcalendar fw y m) 0 0 =
      if weekday y m 1 = fw then 1 else 0 := by
  obtain ⟨h28, _⟩ := monthlen_bounds y m hm1 hm2
  have hd1 := weekday_lt y m 1
  rw [monthcalendar, cellAt_chunks7 0 0 (by norm_num), monthdays_eq]
  by_cases h : weekday y m 1 = fw
  · have hlead : (((weekday y m 1 : Int) - fw) % 7).toNat = 0 := by omega
    rw [if_pos h, hlead]
    obtain ⟨k, hk⟩ : ∃ k, monthlen y m = k + 1 :=
      ⟨monthlen y m - 1, by omega⟩
    simp [hk, List.range'_succ]
  · have hlead : 0 < (((weekday y m 1 : Int) - fw) % 7).toNat := by omega
    rw [if_neg h]
    obtain ⟨j, hj⟩ : ∃ j, (((weekday y m 1 : Int) - fw) % 7).toNat = j + 1 :=
      ⟨(((weekday y m 1 : Int) - fw) % 7).toNat - 1, by omega⟩
    simp [hj, List.replicate_succ]

/-- Which slot the label goes to, in terms of the month's start day. -/
theorem label_slot_eq (fw y m : Nat)
    (hm1 : 1 ≤ m) (hm2 : m ≤ 12) (hfw : fw < 7) :
    label_slot (monthcalendar fw y m) =
      if weekday y m 1 = fw then ((monthcalendar fw y m).length - 1, 6)
      else (0, 0) := by
  rw [label_slot, cellAt_zero_zero fw y m hm1 hm2 hfw]
  by_cases h : weekday y m 1 = fw <;> simp [h]

/-- For a month starting on the first weekday whose length is a multiple
of 7, the bottom-right grid cell holds the month's last day. -/
theorem cellAt_last_full (fw y m : Nat)
    (hm1 : 1 ≤ m) (hm2 : m ≤ 12) (hfw : fw < 7)
    (hstart : weekday y m 1 = fw) (hdvd : monthlen y m % 7 = 0) :
    cellAt (monthcalendar fw y m) ((monthcalendar fw y m).length - 1) 6 =
      monthlen y m := by
  obtain ⟨h28, h31⟩ := monthlen_bounds y m hm1 hm2
  have hd1 := weekday_lt y m 1
  have hlead : (((weekday y m 1 : Int) - fw) % 7).toNat = 0 := by omega
  have htrail :
      (((fw : Int) - weekday y m 1 - monthlen y m) % 7).toNat = 0 := by
    omega
  have hdays : monthdays fw y m = List.range' 1 (monthlen y m) := by
    rw [monthdays_eq, hlead, htrail]; simp
  have hrows : (monthcalendar fw y m).length = monthlen y m / 7 := by
    rw [monthcalendar, chunks7_length, hdays, List.length_range']; omega
  have hcell := cellAt_chunks7 ((monthcalendar fw y m).length - 1) 6
    (by norm_num) (monthdays fw y m)
  rw [← monthcalendar] at hcell
  rw [hcell, hdays, hrows, List.getD_eq_getElem?_getD,
    List.getElem?_range' _ _ (by omega)]
  simp; omega

/-- C3: the label goes to the bottom-right slot `(rows-1, 6)` exactly
when the month's first day is the configured first weekday, and to the
top-left slot `(0, 0)` otherwise; concretely, January 2024 Sunday-first
gets a top-left label and February 2015 Sunday-first a bottom-right
one. -/
theorem C3_label_placement (y m fw : Nat)
    (hm1 : 1 ≤ m) (hm2 : m ≤ 12) (hfw : fw < 7) :
    label_slot (monthcalendar fw y m) =
      (if weekday y m 1 = fw then ((monthcalendar fw y m).length - 1, 6)
       else (0, 0)) ∧
    label_slot (monthcalendar SUNDAY 2024 1) = (0, 0) ∧
    label_slot (monthcalendar SUNDAY 2015 2) =
      ((monthcalendar SUNDAY 2015 2).length - 1, 6) :=
  ⟨label_slot_eq fw y m hm1 hm2 hfw, by decide, by decide⟩

/-- Witness instantiating `C3_label_placement` at May 2024,
Sunday-first. -/
theorem C3_label_placement_witness :
    (1 ≤ 5 ∧ 5 ≤ 12 ∧ SUNDAY < 7) ∧
    (label_slot (monthcalendar SUNDAY 2024 5) =
      (if weekday 2024 5 1 = SUNDAY
       then ((monthcalendar SUNDAY 2024 5).length - 1, 6) else (0, 0)) ∧
     label_slot (monthcalendar SUNDAY 2024 1) = (0, 0) ∧
     label_slot (monthcalendar SUNDAY 2015 2) =
       ((monthcalendar SUNDAY 2015 2).length - 1, 6)) :=
  ⟨by decide,
   C3_label_placement 2024 5 SUNDAY (by decide) (by decide) (by decide)⟩

/-- C10: the label is placed top-left exactly when the grid's top-left
cell is padding (so a top-left label never shares its cell with a date
number), while a bottom-right label shares its cell with day N whenever
the month exactly fills its rows — e.g. the 28-day February 2015 with
Sunday-first, where cell (3, 6) holds day 28. -/
theorem C10_label_corner (y m fw : Nat)
    (hm1 : 1 ≤ m) (hm2 : m ≤ 12) (hfw : fw < 7) :
    (label_slot (monthcalendar fw y m) = (0, 0) ↔
      cellAt (monthcalendar fw y m) 0 0 = 0) ∧
    (cellAt (monthcalendar fw y m) 0 0 ≠ 0 → monthlen y m % 7 = 0 →
      label_slot (monthcalendar fw y m) =
        ((monthcalendar fw y m).length - 1, 6) ∧
      cellAt (monthcalendar fw y m)
        ((monthcalendar fw y m).length - 1) 6 = monthlen y m) ∧
    label_slot (monthcalendar SUNDAY 2015 2) = (3, 6) ∧
    cellAt (monthcalendar SUNDAY 2015 2) 3 6 = 28 := by
  refine ⟨?_, ?_, by decide, by decide⟩
  · rw [label_slot]
    by_cases h : cellAt (monthcalendar fw y m) 0 0 = 0 <;> simp [h]
  · intro hne hdvd
    have h00 := cellAt_zero_zero fw y m hm1 hm2 hfw
    have hstart : weekday y m 1 = fw := by
      by_contra hc
      rw [h00, if_neg hc] at hne
      exact hne rfl
    refine ⟨?_, cellAt_last_full fw y m hm1 hm2 hfw hstart hdvd⟩
    rw [label_slot, if_neg (by simp [h00, hstart])]

/-- Witness instantiating `C10_label_corner` at February 2015,
Sunday-first. -/
theorem C10_label_corner_witness :
    (1 ≤ 2 ∧ 2 ≤ 12 ∧ SUNDAY < 7) ∧
    ((label_slot (monthcalendar SUNDAY 2015 2) = (0, 0) ↔
       cellAt (monthcalendar SUNDAY 2015 2) 0 0 = 0) ∧
     (cellAt (monthcalendar SUNDAY 2015 2) 0 0 ≠ 0 →
       monthlen 2015 2 % 7 = 0 →
       label_slot (monthcalendar SUNDAY 2015 2) =
         ((monthcalendar SUNDAY 2015 2).length - 1, 6) ∧
       cellAt (monthcalendar SUNDAY 2015 2)
         ((monthcalendar SUNDAY 2015 2).length - 1) 6 = monthlen 2015 2) ∧
     label_slot (monthcalendar SUNDAY 2015 2) = (3, 6) ∧
     cellAt (monthcalendar SUNDAY 2015 2) 3 6 = 28) :=
  ⟨by decide,
   C10_label_corner 2015 2 SUNDAY (by decide) (by decide) (by decide)⟩

/-! ## Claim C2: cells tile the inset rectangle -/


/-- A positive target rectangle keeps positive dimensions after the
stroke inset (the inset is at most 0.5% of each dimension). -/
theorem inset_pos (rect : Geom) (hw : 0 < rect.width) (hh : 0 < rect.height) :
    0 < (inset_rect rect).width ∧ 0 < (inset_rect rect).height := by
  have h1 : scale_factor rect ≤ rect.width := min_le_left _ _
  have h2 : scale_factor rect ≤ rect.height := min_le_right _ _
  have h3 : 0 < scale_factor rect := lt_min hw hh
  constructor
  · show 0 < rect.width - line_width rect * 2
    rw [line_width]
    nlinarith
  · show 0 < rect.height - line_width rect * 2
    rw [line_width]
    nlinarith

/-- Any point of `[0, n*s]` lies in one of the `n` consecutive closed
intervals of width `s`. -/
theorem exists_interval_index {s : ℚ} (hs : 0 < s) :
    ∀ n : Nat, 1 ≤ n → ∀ t : ℚ, 0 ≤ t → t ≤ n * s →
      ∃ i, i < n ∧ (i : ℚ) * s ≤ t ∧ t ≤ (i : ℚ) * s + s := by
  intro n
  induction n with
  | zero => intro h; exact (Nat.not_succ_le_zero 0 h).elim
  | succ k ih =>
    intro _ t h0 h1
    by_cases hk : k = 0
    · subst hk
      refine ⟨0, by norm_num, by simpa, ?_⟩
      push_cast at h1 ⊢
      linarith
    · by_cases ht : t ≤ k * s
      · obtain ⟨i, hi, hl, hu⟩ := ih (by omega) t h0 ht
        exact ⟨i, by omega, hl, hu⟩
      · push_neg at ht
        refine ⟨k, by omega, le_of_lt ht, ?_⟩
        push_cast at h1 ⊢
        linarith

/-- C2: for a target rectangle with positive dimensions, the cell
rectangles of `add_calendar_page` exactly tile the stroke-inset
rectangle: the cell areas sum to the inset rectangle's area, no two
distinct cells share an interior point, and every point of the inset
rectangle lies in some cell. -/
theorem C2_tiling (rect : Geom) (rows : Nat)
    (hw : 0 < rect.width) (hh : 0 < rect.height) (hrows : 1 ≤ rows) :
    (∑ rc ∈ Finset.range rows ×ˢ Finset.range 7,
        (cell_rect rect rows rc.1 rc.2).width *
          (cell_rect rect rows rc.1 rc.2).height) =
      (inset_rect rect).width * (inset_rect rect).height ∧
    (∀ r1 c1 r2 c2, r1 < rows → c1 < 7 → r2 < rows → c2 < 7 →
      (r1, c1) ≠ (r2, c2) → ∀ p : ℚ × ℚ,
      ¬(in_cell_interior (cell_rect rect rows r1 c1) p ∧
        in_cell_interior (cell_rect rect rows r2 c2) p)) ∧
    (∀ p : ℚ × ℚ,
      (inset_rect rect).x ≤ p.1 →
      p.1 ≤ (inset_rect rect).x + (inset_rect rect).width →
      (inset_rect rect).y ≤ p.2 →
      p.2 ≤ (inset_rect rect).y + (inset_rect rect).height →
      ∃ row col, row < rows ∧ col < 7 ∧
        in_cell (cell_rect rect rows row col) p) := by
  obtain ⟨hW, hH⟩ := inset_pos rect hw hh
  have hrQ : (0 : ℚ) < rows := by exact_mod_cast hrows
  have hr0 : (rows : ℚ) ≠ 0 := ne_of_gt hrQ
  have hcw : 0 < (inset_rect rect).width / 7 := by positivity
  have hch : 0 < (inset_rect rect).height / rows := div_pos hH hrQ
  refine ⟨?_, ?_, ?_⟩
  · have hconst : ∀ rc ∈ Finset.range rows ×ˢ Finset.range 7,
        (cell_rect rect rows rc.1 rc.2).width *
          (cell_rect rect rows rc.1 rc.2).height =
        (inset_rect rect).width / 7 * ((inset_rect rect).height / rows) := by
      intro rc _
      simp [cell_rect, cellsize]
    rw [Finset.sum_congr rfl hconst, Finset.sum_const, Finset.card_product,
      Finset.card_range, Finset.card_range, nsmul_eq_mul]
    push_cast
    field_simp
    ring
  · rintro r1 c1 r2 c2 hr1 hc1 hr2 hc2 hne p ⟨h1, h2⟩
    simp only [in_cell_interior, cell_rect, cellsize] at h1 h2
    obtain ⟨h1x1, h1x2, h1y1, h1y2⟩ := h1
    obtain ⟨h2x1, h2x2, h2y1, h2y2⟩ := h2
    have e1 : ((rows - r1 : Nat) : ℚ) = (rows : ℚ) - r1 :=
      Nat.cast_sub hr1.le
    have e2 : ((rows - r2 : Nat) : ℚ) = (rows : ℚ) - r2 :=
      Nat.cast_sub hr2.le
    rw [e1] at h1y1 h1y2
    rw [e2] at h2y1 h2y2
    by_cases hcc : c1 = c2
    · have hrr : r1 ≠ r2 := fun h => hne (by rw [h, hcc])
      rcases hrr.lt_or_lt with h | h
      · have hq : (r1 : ℚ) + 1 ≤ r2 := by exact_mod_cast h
        have hmul := mul_le_mul_of_nonneg_right
          (show (rows : ℚ) - r2 + 1 ≤ (rows : ℚ) - r1 by linarith)
          hch.le
        linarith
      · have hq : (r2 : ℚ) + 1 ≤ r1 := by exact_mod_cast h
        have hmul := mul_le_mul_of_nonneg_right
          (show (rows : ℚ) - r1 + 1 ≤ (rows : ℚ) - r2 by linarith)
          hch.le
        linarith
    · rcases Nat.lt_or_ge c1 c2 with h | h
      · have hq : (c1 : ℚ) + 1 ≤ c2 := by exact_mod_cast h
        have hmul := mul_le_mul_of_nonneg_left hq hcw.le
        linarith
      · have hc21 : c2 < c1 := by omega
        have hq : (c2 : ℚ) + 1 ≤ c1 := by exact_mod_cast hc21
        have hmul := mul_le_mul_of_nonneg_left hq hcw.le
        linarith
  · intro p hx1 hx2 hy1 hy2
    have hrs : (rows : ℚ) * ((inset_rect rect).height / rows) =
        (inset_rect rect).height := by field_simp
    obtain ⟨col, hcol, hxl, hxu⟩ := exists_interval_index hcw 7
      (by norm_num) (p.1 - (inset_rect rect).x) (by linarith)
      (by push_cast; linarith)
    obtain ⟨i, hi, hyl, hyu⟩ := exists_interval_index hch rows hrows
      (p.2 - (inset_rect rect).y) (by linarith) (by linarith)
    refine ⟨rows - 1 - i, col, by omega, hcol, ?_⟩
    have e : ((rows - (rows - 1 - i) : Nat) : ℚ) = (i : ℚ) + 1 := by
      have hn : rows - (rows - 1 - i) = i + 1 := by omega
      rw [hn]; push_cast; ring
    simp only [in_cell, cell_rect, cellsize]
    rw [e]
    exact ⟨by linarith, by linarith, by linarith, by linarith⟩

/-- Witness instantiating `C2_tiling` on a 700×500 rectangle with a
5-row grid. -/
theorem C2_tiling_witness :
    (0 < (700 : ℚ) ∧ 0 < (500 : ℚ) ∧ 1 ≤ 5) ∧
    ((∑ rc ∈ Finset.range 5 ×ˢ Finset.range 7,
        (cell_rect ⟨0, 0, 700, 500⟩ 5 rc.1 rc.2).width *
          (cell_rect ⟨0, 0, 700, 500⟩ 5 rc.1 rc.2).height) =
      (inset_rect ⟨0, 0, 700, 500⟩).width *
        (inset_rect ⟨0, 0, 700, 500⟩).height ∧
     (∀ r1 c1 r2 c2, r1 < 5 → c1 < 7 → r2 < 5 → c2 < 7 →
       (r1, c1) ≠ (r2, c2) → ∀ p : ℚ × ℚ,
       ¬(in_cell_interior (cell_rect ⟨0, 0, 700, 500⟩ 5 r1 c1) p ∧
         in_cell_interior (cell_rect ⟨0, 0, 700, 500⟩ 5 r2 c2) p)) ∧
     (∀ p : ℚ × ℚ,
       (inset_rect ⟨0, 0, 700, 500⟩).x ≤ p.1 →
       p.1 ≤ (inset_rect ⟨0, 0, 700, 500⟩).x +
         (inset_rect ⟨0, 0, 700, 500⟩).width →
       (inset_rect ⟨0, 0, 700, 500⟩).y ≤ p.2 →
       p.2 ≤ (inset_rect ⟨0, 0, 700, 500⟩).y +
         (inset_rect ⟨0, 0, 700, 500⟩).height →
       ∃ row col, row < 5 ∧ col < 7 ∧
         in_cell (cell_rect ⟨0, 0, 700, 500⟩ 5 row col) p)) :=
  ⟨⟨by decide, by decide, by decide⟩,
   C2_tiling ⟨0, 0, 700, 500⟩ 5 (by decide) (by decide) (by decide)⟩

/-! ## Claim C7: scoped save/restore of drawing state -/

/-- When no element raises, `run_list` concatenates all emitted ops. -/
theorem run_list_no_raise (f : α → CbResult) (l : List α)
    (h : ∀ x ∈ l, (f x).raised = false) :
    run_list f l = ⟨(l.map (fun x => (f x).ops)).flatten, false⟩ := by
  induction l with
  | nil => rfl
  | cons x xs ih =>
    rw [run_list, ih (fun y hy => h y (List.mem_cons_of_mem x hy))]
    simp [CbResult.andThen, h x (List.mem_cons_self x xs)]

/-- Ops that neither save nor restore leave the state stack alone. -/
theorem exec_ops_stack_neutral (ops : List DrawOp)
    (h : ∀ op ∈ ops, stack_neutral op) :
    ∀ s : GState, (exec_ops s ops).stack = s.stack := by
  induction ops with
  | nil => intro s; rfl
  | cons op rest ih =>
    intro s
    rw [exec_ops, List.foldl_cons]
    rw [show List.foldl exec_op (exec_op s op) rest =
      exec_ops (exec_op s op) rest from rfl]
    rw [ih (fun o ho => h o (List.mem_cons_of_mem op ho))]
    obtain ⟨hs, hr⟩ := h op (List.mem_cons_self op rest)
    cases op <;> simp_all [exec_op]

/-- A completed `with save_state(canvas):` block restores the persistent
drawing state exactly, provided the body returned normally and did not
itself save or restore. -/
theorem with_save_state_preserves (font : Font) (lw : ℚ) (body : CbResult)
    (hr : body.raised = false) (hn : ∀ op ∈ body.ops, stack_neutral op)
    (s : GState) :
    exec_ops s (with_save_state font lw body).ops = s := by
  rw [with_save_state, hr]
  simp only [Bool.false_eq_true, if_false]
  rw [exec_ops, List.foldl_cons, List.foldl_cons, List.foldl_cons,
    List.foldl_append]
  have hstack := exec_ops_stack_neutral body.ops hn
    ⟨some ⟨font.name, font.size⟩, some lw, (s.font, s.lw) :: s.stack⟩
  rw [List.foldl_cons, List.foldl_nil]
  simp only [exec_op]
  rw [show List.foldl exec_op
      ⟨some ⟨font.name, font.size⟩, some lw, (s.font, s.lw) :: s.stack⟩
      body.ops =
    exec_ops ⟨some ⟨font.name, font.size⟩, some lw,
      (s.font, s.lw) :: s.stack⟩ body.ops from rfl]
  simp [hstack]

/-- C7 (amended): when every cell callback returns normally, the page
trace wraps each cell render and the label render in a completed
`saveState` … `restoreState` block with the default font and line width
set inside it, ending with `showPage`; and any such completed block
whose body neither raises nor touches the save stack leaves the
persistent drawing state exactly as it found it.  (The unamended claim
— that the restore also runs when a callback raises — is refuted by
`C7_counterexample_restore_skipped`.) -/
theorem C7_scoped_state (g : Nat) (rect : Geom) (year month : Nat)
    (cb : Nat → Geom → Font → Bool → CbResult) (ord : Bool) (fw : Nat)
    (hcb : ∀ d r f o, (cb d r f o).raised = false) :
    (add_calendar_page_ops g rect year month cb ord fw).1.raised = false ∧
    (add_calendar_page_ops g rect year month cb ord fw).1.ops =
      expected_page_trace rect year month cb ord fw ∧
    (∀ body : CbResult, body.raised = false →
      (∀ op ∈ body.ops, stack_neutral op) → ∀ s : GState,
      exec_ops s
        (with_save_state (page_font rect) (line_width rect) body).ops = s) := by
  have hcells := run_list_no_raise
    (fun rcd => with_save_state (page_font rect) (line_width rect)
      (cb rcd.2.2
        (cell_rect rect (monthcalendar fw year month).length rcd.1 rcd.2.1)
        (page_font rect) ord))
    (cell_positions (monthcalendar fw year month))
    (fun x _ => by simp [with_save_state, hcb])
  refine ⟨?_, ?_, fun body hr hn s =>
    with_save_state_preserves _ _ body hr hn s⟩
  · simp only [add_calendar_page_ops]
    rw [hcells]
    simp [CbResult.andThen, with_save_state]
  · simp only [add_calendar_page_ops]
    rw [hcells]
    simp only [CbResult.andThen, with_save_state]
    simp [expected_page_trace, wrapped_block, hcb]

/-- Witness instantiating `C7_scoped_state` with a concrete non-raising
cell callback on a 700×500 rectangle for January 2024, Sunday-first. -/
theorem C7_scoped_state_witness :
    (∀ (d : Nat) (r : Geom) (f : Font) (o : Bool),
      ((fun (_ : Nat) (_ : Geom) (_ : Font) (_ : Bool) =>
        CbResult.mk [] false) d r f o).raised = false) ∧
    ((add_calendar_page_ops 0 ⟨0, 0, 700, 500⟩ 2024 1
        (fun _ _ _ _ => CbResult.mk [] false) false SUNDAY).1.raised =
      false ∧
     (add_calendar_page_ops 0 ⟨0, 0, 700, 500⟩ 2024 1
        (fun _ _ _ _ => CbResult.mk [] false) false SUNDAY).1.ops =
       expected_page_trace ⟨0, 0, 700, 500⟩ 2024 1
         (fun _ _ _ _ => CbResult.mk [] false) false SUNDAY ∧
     (∀ body : CbResult, body.raised = false →
       (∀ op ∈ body.ops, stack_neutral op) → ∀ s : GState,
       exec_ops s
         (with_save_state (page_font ⟨0, 0, 700, 500⟩)
           (line_width ⟨0, 0, 700, 500⟩) body).ops = s)) :=
  ⟨fun _ _ _ _ => rfl,
   C7_scoped_state 0 ⟨0, 0, 700, 500⟩ 2024 1
     (fun _ _ _ _ => CbResult.mk [] false) false SUNDAY
     (fun _ _ _ _ => rfl)⟩

/-- C7 counterexample: with a cell callback that raises immediately, the
page trace of `add_calendar_page` on January 2024 is exactly
`saveState`, `setFont`, `setLineWidth` — the `restoreState` is never
emitted, because the `save_state` context manager has no try/finally.
The saved drawing state therefore leaks on an exception, refuting the
claim that the restore is guaranteed to run. -/
theorem C7_counterexample_restore_skipped :
    (add_calendar_page_ops 0 ⟨0, 0, 700, 500⟩ 2024 1
       (fun _ _ _ _ => CbResult.mk [] true) false SUNDAY).1.raised =
      true ∧
    (add_calendar_page_ops 0 ⟨0, 0, 700, 500⟩ 2024 1
       (fun _ _ _ _ => CbResult.mk [] true) false SUNDAY).1.ops =
      [DrawOp.saveState,
       DrawOp.setFont "Helvetica" (scale_factor ⟨0, 0, 700, 500⟩ * 0.028),
       DrawOp.setLineWidth (scale_factor ⟨0, 0, 700, 500⟩ * 0.0025)] ∧
    scale_factor ⟨0, 0, 700, 500⟩ = 500 ∧
    (add_calendar_page_ops 0 ⟨0, 0, 700, 500⟩ 2024 1
       (fun _ _ _ _ => CbResult.mk [] true) false SUNDAY).1.ops.count
      DrawOp.restoreState = 0 ∧
    (add_calendar_page_ops 0 ⟨0, 0, 700, 500⟩ 2024 1
       (fun _ _ _ _ => CbResult.mk [] true) false SUNDAY).1.ops.count
      DrawOp.saveState = 1 := by
  refine ⟨rfl, rfl, ?_, ?_, ?_⟩
  · rw [scale_factor]; norm_num
  · decide
  · decide

/-! ## Claim C9: state across calls -/

/-- C9 counterexample: a completed call to `add_calendar_page` (here via
`generate_pdf`) leaves the `calendar` module's global first-weekday
setting equal to the call's `first_weekday` argument — an observable
mutation of state other than the supplied canvas whenever the argument
differs from the previous global value (Python's module default is 0,
Monday). -/
theorem C9_counterexample_global_mutated :
    (generate_pdf_ops (fun _ _ _ => 0) 0 ⟨700, 500⟩ 2024 1 false
        SUNDAY).2 = SUNDAY ∧
    SUNDAY ≠ 0 ∧
    (add_calendar_page_ops 0 ⟨0, 0, 700, 500⟩ 2024 1
        (fun _ _ _ _ => CbResult.mk [] false) false SUNDAY).2 = SUNDAY :=
  ⟨rfl, by decide, rfl⟩

/-- C9 (amended): every `Geom`/`Size`/`Font`/`WeekGrid` value is
recomputed inside each call, so the emitted page trace depends only on
the call's own arguments and never on the incoming global first-weekday
state; but the global state after the call equals the call's
`first_weekday` argument (line 99 `calendar.setfirstweekday`), so that
one module-global setting does persist across calls. -/
theorem C9_fresh_per_call (g g' : Nat) (rect : Geom) (size : Size)
    (year month : Nat) (cb : Nat → Geom → Font → Bool → CbResult)
    (stringWidth : String → String → ℚ → ℚ) (ord : Bool) (fw : Nat) :
    (add_calendar_page_ops g rect year month cb ord fw).1 =
      (add_calendar_page_ops g' rect year month cb ord fw).1 ∧
    (add_calendar_page_ops g rect year month cb ord fw).2 = fw ∧
    (generate_pdf_ops stringWidth g size year month ord fw).1 =
      (generate_pdf_ops stringWidth g' size year month ord fw).1 ∧
    (generate_pdf_ops stringWidth g size year month ord fw).2 = fw :=
  ⟨rfl, rfl, rfl, rfl⟩
